import Mathlib

/-!
Shallow embedding of the YOLO-World `image_demo.py` command-line demo
script, together with theorems checking the natural-language
specification of the script against the code.

The embedding covers the parts of the script the claims are about:

* the confidence-threshold filter and top-k truncation applied to the
  raw model predictions (`inference_detector`, lines 72-79 of
  `image_demo.py`);
* the label formatting `f"{texts[class_id][0]} {confidence:0.2f}"`
  (lines 86-89);
* the output-path computation and unconditional image write
  (lines 92-95);
* the prompt loader (lines 124-129), both the `.txt`-file branch and
  the inline comma-separated branch;
* the image-job resolution (lines 141-147).

Scores are embedded as rationals (the Python floats are only compared,
ordered and printed here, never accumulated, so an ordered-field
embedding is faithful for the stated properties).  The external model
is embedded as an oracle producing a raw detection list per image;
file contents are embedded as the list of lines `readlines` returns.
String primitives the script uses (`split`, `strip`, `rstrip`,
`endswith`, `startswith`, `os.path.basename`, `os.path.join`) are
embedded as structurally recursive functions on the character list of
a string, matching the Python semantics.
-/

/-- One raw or surviving prediction instance: the class index
(`pred_instances['labels']` entry) and the confidence score
(`pred_instances['scores']` entry).  The box coordinates play no role
in any claim and are omitted. -/
structure Det where
  label : ℕ
  score : ℚ
deriving DecidableEq, Repr

/-- Line 75-76 of `image_demo.py`:
`pred_instances = pred_instances[pred_instances.scores.float() > score_thr]`.
Keeps exactly the instances whose score is strictly greater than the
threshold. -/
def thresholdFilter (dets : List Det) (score_thr : ℚ) : List Det :=
  dets.filter (fun d => decide (score_thr < d.score))

/-- Descending-by-score comparison used to embed `scores.topk`:
`scoreGE a b` holds when `a`'s score is at least `b`'s. -/
def scoreGE (a b : Det) : Prop := b.score ≤ a.score

instance : DecidableRel scoreGE :=
  fun a b => inferInstanceAs (Decidable (b.score ≤ a.score))

instance : IsTotal Det scoreGE :=
  ⟨fun a b => (le_total b.score a.score).imp id id⟩

instance : IsTrans Det scoreGE :=
  ⟨fun _ _ _ hab hbc => le_trans hbc hab⟩

/-- The instances sorted by score in descending order.  `torch.topk`
returns the `k` largest values in descending order with an unspecified
but consistent tie order; a stable descending sort realises one such
consistent order. -/
def sortByScoreDesc (dets : List Det) : List Det :=
  List.insertionSort scoreGE dets

/-- Lines 77-79 of `image_demo.py`:
`if len(pred_instances.scores) > max_dets:` then reindex by
`pred_instances.scores.float().topk(max_dets)[1]`.  When more than
`max_dets` instances remain, keep the `max_dets` highest-scoring ones
(in descending score order); otherwise the list passes through
unchanged. -/
def truncateTopk (dets : List Det) (max_dets : ℕ) : List Det :=
  if max_dets < dets.length then (sortByScoreDesc dets).take max_dets else dets

/-- The whole postprocessing step of `inference_detector`: threshold
filter (lines 75-76) followed by top-k truncation (lines 77-79). -/
def postprocess (dets : List Det) (score_thr : ℚ) (max_dets : ℕ) : List Det :=
  truncateTopk (thresholdFilter dets score_thr) max_dets

/-- Python `str.split(sep)` for a one-character separator, on the
character list: every occurrence of the separator is a cut point, and
empty pieces are preserved (`''.split(',') == ['']`). -/
def splitChar (sep : Char) : List Char → List (List Char)
  | [] => [[]]
  | c :: cs =>
    if c == sep then [] :: splitChar sep cs
    else
      match splitChar sep cs with
      | r :: rs => (c :: r) :: rs
      | [] => [[c]]

/-- Python `args.text.split(',')`. -/
def splitOnComma (s : String) : List String :=
  (splitChar ',' s.data).map (fun l => ⟨l⟩)

/-- The characters Python's default `str.strip()` removes (the ASCII
whitespace characters). -/
def isPySpace (c : Char) : Bool :=
  c == ' ' || c == '\t' || c == '\n' || c == '\r' || c == '\x0b' || c == '\x0c'

/-- Python `t.strip()`: remove leading and trailing whitespace. -/
def pyStrip (s : String) : String :=
  ⟨((s.data.dropWhile isPySpace).reverse.dropWhile isPySpace).reverse⟩

/-- Python's `t.rstrip('\r\n')`: remove every trailing carriage
return and line feed character. -/
def rstripNewline (s : String) : String :=
  ⟨(s.data.reverse.dropWhile (fun c => c == '\r' || c == '\n')).reverse⟩

/-- Python `s.endswith(p)` for a plain string argument. -/
def strEndsWith (s p : String) : Bool :=
  List.isSuffixOf p.data s.data

/-- Python `s.startswith(p)` for a plain string argument. -/
def strStartsWith (s p : String) : Bool :=
  List.isPrefixOf p.data s.data

/-- Line 127 of `image_demo.py` (the `.txt` branch of the prompt
loader): `texts = [[t.rstrip('\r\n')] for t in lines] + [[' ']]`,
where `lines` is the list returned by `f.readlines()`. -/
def loadTextsFile (lines : List String) : List (List String) :=
  lines.map (fun t => [rstripNewline t]) ++ [[" "]]

/-- Line 129 of `image_demo.py` (the inline branch of the prompt
loader): `texts = [[t.strip()] for t in args.text.split(',')] + [[' ']]`. -/
def loadTextsInline (s : String) : List (List String) :=
  (splitOnComma s).map (fun t => [pyStrip t]) ++ [[" "]]

/-- Lines 124-129 of `image_demo.py`: the prompt loader.  The branch
is selected by `args.text.endswith('.txt')`; in the file branch the
file's contents enter as the line list `readlines` produced. -/
def loadText (isTxt : Bool) (fileLines : List String) (arg : String) :
    List (List String) :=
  if isTxt then loadTextsFile fileLines else loadTextsInline arg

/-- Python's `f"{confidence:0.2f}"`: the confidence rendered with
exactly two digits after the decimal point, the third decimal rounded
to nearest with ties to even as in Python's fixed-point formatting.
Computed on the numerator and denominator directly: the integer
rendered is round-half-even of `q * 100`. -/
def format2f (q : ℚ) : String :=
  let n : ℤ := q.num * 100
  let d : ℤ := (q.den : ℤ)
  let f : ℤ := Int.fdiv n d
  let r : ℤ := n - f * d
  let rounded : ℤ :=
    if 2 * r < d then f
    else if d < 2 * r then f + 1
    else if f % 2 = 0 then f else f + 1
  let a : ℕ := rounded.natAbs
  (if rounded < 0 then "-" else "") ++ toString (a / 100) ++ "." ++
    (if a % 100 < 10 then "0" else "") ++ toString (a % 100)

/-- Lines 86-89 of `image_demo.py`, for one detection:
`f"{texts[class_id][0]} {confidence:0.2f}"`.  Python list indexing
raises `IndexError` out of range; both indexing steps are embedded
fallibly, `none` standing for the raised error. -/
def labelOf? (texts : List (List String)) (d : Det) : Option String :=
  match texts[d.label]? with
  | some g =>
    match g[0]? with
    | some x => some (x ++ " " ++ format2f d.score)
    | none => none
  | none => none

/-- Lines 86-89 of `image_demo.py`: the label list comprehension over
all surviving detections.  `none` when any single label raises. -/
def mkLabels? (texts : List (List String)) : List Det → Option (List String)
  | [] => some []
  | d :: ds =>
    match labelOf? texts d, mkLabels? texts ds with
    | some l, some ls => some (l :: ls)
    | _, _ => none

/-- `os.path.basename` for POSIX paths: the component after the last
slash. -/
def basename (p : String) : String :=
  ⟨(p.data.reverse.takeWhile (fun c => !(c == '/'))).reverse⟩

/-- `os.path.join` for POSIX paths, two arguments. -/
def pathJoin (a b : String) : String :=
  if strStartsWith b "/" then b
  else if a = "" || strEndsWith a "/" then a ++ b
  else a ++ "/" ++ b

/-- The observable outcome of one `inference_detector` call: the
surviving detections, the rendered labels, and the path the annotated
image is written to (line 95 of `image_demo.py`:
`cv2.imwrite(osp.join(output_dir, osp.basename(image_path)), image)`). -/
structure InferenceOutcome where
  dets : List Det
  labels : Option (List String)
  writtenPath : String
deriving Repr

/-- The `inference_detector` function of `image_demo.py` (lines
58-102), with the opaque model call replaced by its raw prediction
list `raw`.  The write at line 95 is unconditional: it happens whether
or not any detection survived. -/
def inference_detector (raw : List Det) (image_path : String)
    (texts : List (List String)) (max_dets : ℕ) (score_thr : ℚ)
    (output_dir : String) : InferenceOutcome :=
  let kept := postprocess raw score_thr max_dets
  { dets := kept
    labels := mkLabels? texts kept
    writtenPath := pathJoin output_dir (basename image_path) }

/-- The driver loop of `image_demo.py` (lines 150-160): one
`inference_detector` call per resolved image path, in order; the
result records the path written for each image.  `modelOut` is the
oracle giving the opaque model's raw predictions on each image. -/
def runBatch (modelOut : String → List Det) (texts : List (List String))
    (max_dets : ℕ) (score_thr : ℚ) (output_dir : String)
    (images : List String) : List String :=
  images.map (fun p =>
    (inference_detector (modelOut p) p texts max_dets score_thr output_dir).writtenPath)

/-- Lines 141-147 of `image_demo.py`: resolve the image argument into
the job list.  `isFile` is `osp.isfile(args.image)`; `listing` is
`os.listdir(args.image)` when the argument is treated as a directory. -/
def resolveImageJobs (isFile : Bool) (arg : String) (listing : List String) :
    List String :=
  if isFile then [arg]
  else (listing.filter (fun f => strEndsWith f ".png" || strEndsWith f ".jpg")).map
    (fun f => pathJoin arg f)

example : loadTextsInline "cat,dog" = [["cat"], ["dog"], [" "]] := by decide

example : format2f (mkRat 73 100) = "0.73" := by decide

example : labelOf? [["cat"], ["dog"], [" "]] ⟨1, mkRat 73 100⟩ = some "dog 0.73" := by
  decide

example : postprocess
    [⟨0, mkRat 9 10⟩, ⟨1, mkRat 4 10⟩, ⟨2, mkRat 6 10⟩, ⟨3, mkRat 95 100⟩]
    (mkRat 1 2) 2 = [⟨3, mkRat 95 100⟩, ⟨0, mkRat 9 10⟩] := by decide

example : resolveImageJobs false "d" ["a.png", "b.JPG", "c.txt", "e.jpg"] =
    ["d/a.png", "d/e.jpg"] := by decide

example : rstripNewline "a\r\n" = "a" := by decide

example : basename "x/y/img.png" = "img.png" := by decide

example : loadTextsFile ["a\n", "\n", "b"] = [["a"], [""], ["b"], [" "]] := by
  decide

/-! ### Helper lemmas shared by the claim theorems -/

/-- Membership in the threshold filter output characterised. -/
theorem mem_thresholdFilter {dets : List Det} {thr : ℚ} {d : Det} :
    d ∈ thresholdFilter dets thr ↔ d ∈ dets ∧ thr < d.score := by
  simp [thresholdFilter, List.mem_filter]

/-- Top-k truncation only ever keeps elements of its input. -/
theorem mem_of_mem_truncateTopk {l : List Det} {k : ℕ} {d : Det}
    (h : d ∈ truncateTopk l k) : d ∈ l := by
  unfold truncateTopk at h
  split at h
  · exact (List.mem_insertionSort scoreGE).mp (List.mem_of_mem_take h)
  · exact h

/-- Every postprocessed detection is one of the raw detections. -/
theorem mem_of_mem_postprocess {raw : List Det} {thr : ℚ} {k : ℕ} {d : Det}
    (h : d ∈ postprocess raw thr k) : d ∈ raw :=
  (mem_thresholdFilter.mp (mem_of_mem_truncateTopk h)).1

/-- Every postprocessed detection passed the threshold filter. -/
theorem score_gt_of_mem_postprocess {raw : List Det} {thr : ℚ} {k : ℕ} {d : Det}
    (h : d ∈ postprocess raw thr k) : thr < d.score :=
  (mem_thresholdFilter.mp (mem_of_mem_truncateTopk h)).2

/-- The label list succeeds, with one label per detection, whenever
every class index is in range and every prompt group is non-empty. -/
theorem mkLabels?_eq_some (texts : List (List String)) (dets : List Det)
    (hc : ∀ d ∈ dets, d.label < texts.length)
    (hne : ∀ g ∈ texts, 0 < g.length) :
    ∃ ls, mkLabels? texts dets = some ls ∧ ls.length = dets.length := by
  induction dets with
  | nil => exact ⟨[], rfl, rfl⟩
  | cons d ds ih =>
    obtain ⟨ls, hls, hlen⟩ := ih (fun x hx => hc x (List.mem_cons_of_mem d hx))
    have hd1 : d.label < texts.length := hc d (List.mem_cons_self d ds)
    have hg : texts[d.label]? = some texts[d.label] :=
      List.getElem?_eq_getElem hd1
    have hgmem : texts[d.label] ∈ texts := by
      apply List.getElem_mem
    have hgpos : 0 < texts[d.label].length := hne _ hgmem
    obtain ⟨x, xs, hx⟩ : ∃ x xs, texts[d.label] = x :: xs := by
      cases hgl : texts[d.label] with
      | nil => rw [hgl] at hgpos; exact absurd hgpos (by simp)
      | cons x xs => exact ⟨x, xs, rfl⟩
    refine ⟨(x ++ " " ++ format2f d.score) :: ls, ?_, by simp [hlen]⟩
    simp [mkLabels?, labelOf?, hg, hx, hls]

/-! ### Claim theorems -/

/-- C1: for every confidence threshold, every raw instance list and
every top-k limit, the postprocessed output contains no detection
whose score is less than or equal to the threshold: every surviving
detection has score strictly greater than the threshold, a detection
scoring exactly the threshold is dropped, and the filter step keeps
exactly the instances with score strictly above the threshold. -/
theorem postprocess_score_gt_threshold (dets : List Det) (thr : ℚ) (k : ℕ)
    (d : Det) :
    (d ∈ postprocess dets thr k → thr < d.score) ∧
    (d.score = thr → d ∉ postprocess dets thr k) ∧
    (d ∈ thresholdFilter dets thr ↔ d ∈ dets ∧ thr < d.score) := by
  refine ⟨fun h => score_gt_of_mem_postprocess h, fun he h => ?_, mem_thresholdFilter⟩
  have := score_gt_of_mem_postprocess h
  rw [he] at this
  exact lt_irrefl thr this

/-- Witness for C1 at a concrete input: with threshold 1/2, the
detection scoring 3/4 survives only because 1/2 < 3/4, and the
detection scoring exactly 1/2 is dropped. -/
theorem postprocess_score_gt_threshold_witness :
    mkRat 1 2 < mkRat 3 4 ∧
    (⟨1, mkRat 1 2⟩ : Det) ∉
      postprocess [⟨0, mkRat 3 4⟩, ⟨1, mkRat 1 2⟩] (mkRat 1 2) 5 := by
  constructor
  · exact (postprocess_score_gt_threshold [⟨0, mkRat 3 4⟩, ⟨1, mkRat 1 2⟩]
      (mkRat 1 2) 5 ⟨0, mkRat 3 4⟩).1 (by decide)
  · exact (postprocess_score_gt_threshold [⟨0, mkRat 3 4⟩, ⟨1, mkRat 1 2⟩]
      (mkRat 1 2) 5 ⟨1, mkRat 1 2⟩).2.1 rfl

/-- C2: the top-k truncation step never returns more than `k`
detections; when at most `k` detections remain after thresholding the
list passes through untruncated; and when more than `k` remain, the
output has exactly `k` detections and they are the `k`
highest-confidence ones — together with the discarded rest they are a
permutation of the input, and every kept score is at least every
discarded score. -/
theorem truncateTopk_spec (dets : List Det) (k : ℕ) :
    (truncateTopk dets k).length ≤ k ∧
    (dets.length ≤ k → truncateTopk dets k = dets) ∧
    (k < dets.length →
      ∃ rest : List Det,
        (truncateTopk dets k ++ rest).Perm dets ∧
        (truncateTopk dets k).length = k ∧
        ∀ a ∈ truncateTopk dets k, ∀ b ∈ rest, b.score ≤ a.score) := by
  refine ⟨?_, ?_, ?_⟩
  · unfold truncateTopk
    split
    · rw [List.length_take]
      exact min_le_left _ _
    · omega
  · intro h
    unfold truncateTopk
    rw [if_neg (not_lt.mpr h)]
  · intro h
    have htr : truncateTopk dets k = (sortByScoreDesc dets).take k := by
      unfold truncateTopk
      rw [if_pos h]
    refine ⟨(sortByScoreDesc dets).drop k, ?_, ?_, ?_⟩
    · rw [htr, List.take_append_drop]
      exact List.perm_insertionSort scoreGE dets
    · rw [htr]
      simp [List.length_take, sortByScoreDesc]
      omega
    · intro a ha b hb
      rw [htr] at ha
      exact (List.sorted_insertionSort scoreGE dets).rel_of_mem_take_of_mem_drop ha hb

/-- Witness for C2 at a concrete input: two detections, k = 1 — the
higher-scoring one is kept and its score dominates the discarded one. -/
theorem truncateTopk_spec_witness :
    ∃ rest : List Det,
      (truncateTopk [⟨0, mkRat 1 2⟩, ⟨1, mkRat 3 4⟩] 1 ++ rest).Perm
        [⟨0, mkRat 1 2⟩, ⟨1, mkRat 3 4⟩] ∧
      (truncateTopk [⟨0, mkRat 1 2⟩, ⟨1, mkRat 3 4⟩] 1).length = 1 ∧
      ∀ a ∈ truncateTopk [⟨0, mkRat 1 2⟩, ⟨1, mkRat 3 4⟩] 1,
        ∀ b ∈ rest, b.score ≤ a.score :=
  (truncateTopk_spec [⟨0, mkRat 1 2⟩, ⟨1, mkRat 3 4⟩] 1).2.2 (by decide)

/-- C3: the inline branch of the prompt loader splits the text
argument on commas, strips whitespace from each token, wraps each
token in a singleton group and appends the sentinel group: the
resulting prompt set has one group per comma-separated token plus one,
its last group is the sentinel, and its i-th group is the i-th token
stripped. -/
theorem loadTextsInline_spec (s : String) :
    (loadTextsInline s).length = (splitOnComma s).length + 1 ∧
    (loadTextsInline s).getLast? = some [" "] ∧
    ∀ i : ℕ, ∀ h : i < (splitOnComma s).length,
      (loadTextsInline s)[i]? = some [pyStrip ((splitOnComma s).get ⟨i, h⟩)] := by
  refine ⟨by simp [loadTextsInline], ?_, ?_⟩
  · unfold loadTextsInline
    exact List.getLast?_concat _
  · intro i h
    unfold loadTextsInline
    rw [List.getElem?_append_left (by simpa using h), List.getElem?_map,
      List.getElem?_eq_getElem h]
    rfl

/-- Witness for C3 at a concrete input: `"cat, dog"` yields token 0
`"cat"` (already stripped) in slot 0. -/
theorem loadTextsInline_spec_witness :
    (loadTextsInline "cat, dog")[0]? = some ["cat"] := by
  have h := (loadTextsInline_spec "cat, dog").2.2 0 (by decide)
  rw [h]
  decide

/-- C4: for every surviving detection with class index `c` and
confidence `s`, the rendered label is the first string of prompt group
`c`, a space, and `s` formatted to two decimal places; in particular
with text `"cat,dog"` the prompt set is `[["cat"], ["dog"], [" "]]`
and a detection with class index 1 and score 0.73 renders `"dog 0.73"`. -/
theorem label_format_spec :
    (∀ (texts : List (List String)) (c : ℕ) (s : ℚ) (x : String) (g : List String),
      texts[c]? = some (x :: g) →
      labelOf? texts ⟨c, s⟩ = some (x ++ " " ++ format2f s)) ∧
    loadTextsInline "cat,dog" = [["cat"], ["dog"], [" "]] ∧
    labelOf? (loadTextsInline "cat,dog") ⟨1, mkRat 73 100⟩ = some "dog 0.73" := by
  refine ⟨?_, by decide, by decide⟩
  intro texts c s x g h
  simp [labelOf?, h]

/-- Witness for C4 at a concrete input: group 0 of a two-group prompt
set renders with its primary label and the formatted score. -/
theorem label_format_spec_witness :
    labelOf? [["cat"], ["dog"], [" "]] ⟨0, mkRat 1 2⟩ =
      some ("cat" ++ " " ++ format2f (mkRat 1 2)) :=
  label_format_spec.1 [["cat"], ["dog"], [" "]] 0 (mkRat 1 2) "cat" [] rfl

/-- C5: when the image argument names an existing file the job list
is exactly that path, regardless of extension; otherwise the argument
is treated as a directory and the job list holds exactly the joined
paths of those listing entries whose name ends in `.png` or `.jpg`
(case-sensitively), all other entries excluded. -/
theorem resolveImageJobs_spec :
    (∀ (arg : String) (listing : List String),
      resolveImageJobs true arg listing = [arg]) ∧
    (∀ (arg : String) (listing : List String) (p : String),
      p ∈ resolveImageJobs false arg listing ↔
        ∃ f, f ∈ listing ∧
          (strEndsWith f ".png" || strEndsWith f ".jpg") = true ∧
          p = pathJoin arg f) ∧
    resolveImageJobs false "d" ["a.png", "b.JPG", "c.txt", "e.jpg"] =
      ["d/a.png", "d/e.jpg"] := by
  refine ⟨fun arg listing => rfl, ?_, by decide⟩
  intro arg listing p
  show p ∈ (listing.filter _).map _ ↔ _
  simp only [List.mem_map, List.mem_filter]
  constructor
  · rintro ⟨f, ⟨hf, he⟩, rfl⟩
    exact ⟨f, hf, he, rfl⟩
  · rintro ⟨f, hf, he, rfl⟩
    exact ⟨f, ⟨hf, he⟩, rfl⟩

/-- Witness for C5 at a concrete input: a single existing file of a
foreign extension passes through, and a `.png` directory entry is in
the directory job list. -/
theorem resolveImageJobs_spec_witness :
    resolveImageJobs true "photo.gif" ["x.png"] = ["photo.gif"] ∧
    "d/a.png" ∈ resolveImageJobs false "d" ["a.png"] :=
  ⟨resolveImageJobs_spec.1 "photo.gif" ["x.png"],
   (resolveImageJobs_spec.2.1 "d" ["a.png"] "d/a.png").mpr
     ⟨"a.png", by decide, by decide, by decide⟩⟩

/-- C6: the prompt loader never returns an empty prompt set — the
sentinel group is appended in both branches — so the stated contract
that loading fails rather than returning an empty prompt set holds:
the empty-result case is unreachable and no return of an empty prompt
set occurs on any input. -/
theorem loadText_no_empty_return (isTxt : Bool) (fileLines : List String)
    (arg : String) :
    0 < (loadText isTxt fileLines arg).length := by
  cases isTxt <;> simp [loadText, loadTextsFile, loadTextsInline]

/-- C7: the `.txt` branch of the prompt loader produces one group per
line of the file with line terminators stripped — empty lines are
preserved as empty-string groups, not dropped — so the group count is
the line count plus the sentinel, the i-th group is the i-th line
stripped of its terminator, and the last group is the sentinel. -/
theorem loadTextsFile_spec (lines : List String) :
    (loadTextsFile lines).length = lines.length + 1 ∧
    (loadTextsFile lines).getLast? = some [" "] ∧
    (∀ i : ℕ, ∀ h : i < lines.length,
      (loadTextsFile lines)[i]? = some [rstripNewline (lines.get ⟨i, h⟩)]) ∧
    loadTextsFile ["a\n", "\n", "b\r\n"] = [["a"], [""], ["b"], [" "]] := by
  refine ⟨by simp [loadTextsFile], ?_, ?_, by decide⟩
  · unfold loadTextsFile
    exact List.getLast?_concat _
  · intro i h
    unfold loadTextsFile
    rw [List.getElem?_append_left (by simpa using h), List.getElem?_map,
      List.getElem?_eq_getElem h]
    rfl

/-- Witness for C7 at a concrete input: the empty line `"\n"` becomes
the empty-string group in its slot. -/
theorem loadTextsFile_spec_witness :
    (loadTextsFile ["a\n", "\n"])[1]? = some [""] := by
  have h := (loadTextsFile_spec ["a\n", "\n"]).2.2.1 1 (by decide)
  rw [h]
  decide

/-- C8: every processed image produces exactly one written output, at
the output directory joined with the basename of the source path —
one write per input image, at that path, and the write also happens
when no detection survives (the written path of a run with an empty
raw prediction list, whose surviving set is empty, is the same). -/
theorem writes_one_output_per_image (modelOut : String → List Det)
    (texts : List (List String)) (max_dets : ℕ) (score_thr : ℚ)
    (output_dir : String) (images : List String) :
    (runBatch modelOut texts max_dets score_thr output_dir images).length =
      images.length ∧
    (∀ i : ℕ, ∀ h : i < images.length,
      (runBatch modelOut texts max_dets score_thr output_dir images)[i]? =
        some (pathJoin output_dir (basename (images.get ⟨i, h⟩)))) ∧
    (∀ (raw : List Det) (p : String),
      (inference_detector raw p texts max_dets score_thr output_dir).writtenPath =
        pathJoin output_dir (basename p)) ∧
    (∀ p : String,
      (inference_detector [] p texts max_dets score_thr output_dir).dets = []) := by
  refine ⟨by simp [runBatch], ?_, fun raw p => rfl, fun p => ?_⟩
  · intro i h
    unfold runBatch
    rw [List.getElem?_map, List.getElem?_eq_getElem h]
    rfl
  · simp [inference_detector, postprocess, thresholdFilter, truncateTopk]

/-- Witness for C8 at a concrete input: with no raw detections at all
the batch still writes `demo_outputs/dog.jpg` for `data/dog.jpg`. -/
theorem writes_one_output_per_image_witness :
    (runBatch (fun _ => []) [["cat"], [" "]] 100 (mkRat 0 1) "demo_outputs"
      ["data/dog.jpg"])[0]? = some "demo_outputs/dog.jpg" := by
  have h := (writes_one_output_per_image (fun _ => []) [["cat"], [" "]] 100
    (mkRat 0 1) "demo_outputs" ["data/dog.jpg"]).2.1 0 (by decide)
  rw [h]
  decide

/-- C9: when every raw detection's class index is below the prompt-set
length (the data-model invariant; the raw indices come from the opaque
model whose contract fixes them to index the prompt set) and every
prompt group is non-empty, the invariant carries over to every
surviving detection, and the double indexing `texts[class_id][0]` of
the label step succeeds for all of them — the out-of-range branch is
unreachable. -/
theorem postprocess_labels_in_bounds (texts : List (List String))
    (raw : List Det) (score_thr : ℚ) (max_dets : ℕ)
    (hclass : ∀ d ∈ raw, d.label < texts.length)
    (hne : ∀ g ∈ texts, 0 < g.length) :
    (∀ d ∈ postprocess raw score_thr max_dets, d.label < texts.length) ∧
    ∃ ls, mkLabels? texts (postprocess raw score_thr max_dets) = some ls ∧
      ls.length = (postprocess raw score_thr max_dets).length := by
  have hsub : ∀ d ∈ postprocess raw score_thr max_dets, d.label < texts.length :=
    fun d hd => hclass d (mem_of_mem_postprocess hd)
  exact ⟨hsub, mkLabels?_eq_some texts _ hsub hne⟩

/-- Witness for C9 at a concrete input: one in-range detection, all
groups non-empty — the label list is produced. -/
theorem postprocess_labels_in_bounds_witness :
    ∃ ls, mkLabels? [["cat"], ["dog"], [" "]]
        (postprocess [⟨1, mkRat 3 4⟩] (mkRat 1 2) 1) = some ls ∧
      ls.length = (postprocess [⟨1, mkRat 3 4⟩] (mkRat 1 2) 1).length :=
  (postprocess_labels_in_bounds [["cat"], ["dog"], [" "]] [⟨1, mkRat 3 4⟩]
    (mkRat 1 2) 1 (by decide) (by decide)).2

/-- C10: on every input, in both loader branches, every group of the
produced prompt set is a singleton — the multi-synonym group shape the
data model permits is never produced — and the appended sentinel, the
set's last group, is exactly the single-space group. -/
theorem promptset_groups_singleton (isTxt : Bool) (fileLines : List String)
    (arg : String) :
    (∀ g ∈ loadText isTxt fileLines arg, ∃ x, g = [x]) ∧
    (loadText isTxt fileLines arg).getLast? = some [" "] := by
  cases isTxt with
  | false =>
    refine ⟨?_, ?_⟩
    · intro g hg
      simp only [loadText, Bool.false_eq_true, if_false, loadTextsInline,
        List.mem_append, List.mem_map, List.mem_singleton] at hg
      rcases hg with ⟨t, _, rfl⟩ | rfl
      · exact ⟨pyStrip t, rfl⟩
      · exact ⟨" ", rfl⟩
    · show (loadTextsInline arg).getLast? = some [" "]
      unfold loadTextsInline
      exact List.getLast?_concat _
  | true =>
    refine ⟨?_, ?_⟩
    · intro g hg
      simp only [loadText, if_true, loadTextsFile,
        List.mem_append, List.mem_map, List.mem_singleton] at hg
      rcases hg with ⟨t, _, rfl⟩ | rfl
      · exact ⟨rstripNewline t, rfl⟩
      · exact ⟨" ", rfl⟩
    · show (loadTextsFile fileLines).getLast? = some [" "]
      unfold loadTextsFile
      exact List.getLast?_concat _

/-- Witness for C10 at a concrete input: the sentinel group of the
inline load of `"cat"` is a singleton. -/
theorem promptset_groups_singleton_witness :
    ∃ x, ([" "] : List String) = [x] :=
  (promptset_groups_singleton false [] "cat").1 [" "] (by decide)
